import Mathlib

/-!
Verification of `fixlink` (ntfslinkutils, src/fixlink/source/fixlink.cpp).

The development shallowly embeds the program: the filesystem visible to one
run is a finite tree of nodes, each node carrying the answers the Win32 API
would give for that path (attribute query, junction/symlink tests, target
read, delete/create results, directory enumeration outcome).  The traversal
function `fixlink`, the argument parser and the driver `tmain` are direct
translations of the C source; observable actions (link operations, printed
messages) are collected in an event trace.
-/

/-- Win32 error code ERROR_FILE_NOT_FOUND. -/
def ERROR_FILE_NOT_FOUND : Nat := 2

/-- Win32 error code ERROR_PATH_NOT_FOUND. -/
def ERROR_PATH_NOT_FOUND : Nat := 3

/-- Win32 error code ERROR_ACCESS_DENIED. -/
def ERROR_ACCESS_DENIED : Nat := 5

/-- The two attribute bits of a filesystem object that fixlink.cpp inspects:
FILE_ATTRIBUTE_REPARSE_POINT and FILE_ATTRIBUTE_DIRECTORY. -/
structure FileAttrs where
  reparsePoint : Bool
  directory : Bool
deriving Repr, DecidableEq

/-- The answers the platform gives for one path during a single visit:
`attrQuery` is the GetFileAttributesEx outcome (error value = GetLastError),
`listedAttrs` the attribute bits reported for this entry in its parent's
directory listing (WIN32_FIND_DATA), `isJunction`/`isSymlink` the two kind
tests, `kindLastError` the GetLastError value observed when neither kind
test succeeds, `getTarget` the GetJunctionTarget/GetSymlinkTarget outcome,
`deleteResult`/`createResult` the Delete/Create results (0 = success), and
`enumQuery` the FindFirstFile outcome for a directory. -/
structure NodeInfo where
  attrQuery : Except Nat FileAttrs
  listedAttrs : FileAttrs
  isJunction : Bool
  isSymlink : Bool
  kindLastError : Nat
  getTarget : Except Nat (List Char)
  deleteResult : Nat
  createResult : Nat
  enumQuery : Except Nat Unit

mutual
/-- A filesystem subtree: the platform answers for the node itself plus its
named children, in the order FindFirstFile/FindNextFile yields them. -/
inductive FsNode where
  | node (info : NodeInfo) (children : FsChildren)
/-- Directory entries of a node: name plus subtree, in enumeration order. -/
inductive FsChildren where
  | nil
  | cons (name : List Char) (child : FsNode) (rest : FsChildren)
end

/-- The platform answers for the root of a subtree. -/
def FsNode.info : FsNode → NodeInfo
  | .node i _ => i

/-- Per-invocation configuration (fixlinkOptions from DataTypes.h). -/
structure fixlinkOptions where
  OldTargetBase : List Char
  NewTargetBase : List Char
  MaxDepth : Int
  bVerbose : Bool
deriving Repr, DecidableEq

/-- Process-wide counters (fixlinkStats from DataTypes.h). -/
structure fixlinkStats where
  NumModified : Nat
  NumSkipped : Nat
  NumFailed : Nat
deriving Repr, DecidableEq

/-- Modelled from the spec: the zero-initialized global `Options`
(DataTypes.h is not under src/); §3 gives `maxDepth` -1 = unbounded as the
default and empty strings / false for the remaining fields. -/
def initialOptions : fixlinkOptions :=
  { OldTargetBase := [], NewTargetBase := [], MaxDepth := -1, bVerbose := false }

/-- The zero-initialized global `Stats`. -/
def initialStats : fixlinkStats :=
  { NumModified := 0, NumSkipped := 0, NumFailed := 0 }

/-- Observable actions of a run: link-library calls and printed lines, in
program order. -/
inductive Event where
  | msgFileNotFound (path : List Char)
  | msgPathNotFound (path : List Char)
  | msgAccessDenied (path : List Char)
  | getJunctionTarget (path : List Char)
  | strReplaceCall (target old new : List Char)
  | deleteJunction (path : List Char)
  | createJunction (path target : List Char)
  | msgJunctionModified (path old new : List Char)
  | getSymlinkTarget (path : List Char)
  | deleteSymlink (path : List Char)
  | createSymlink (path target : List Char)
  | msgSymlinkModified (path old new : List Char)
  | msgUnrecognized (path : List Char)
  | enumDir (path : List Char)
  | msgMissingArgs
  | printUsage
  | printVersion
  | summary (m s f : Nat)
deriving Repr, DecidableEq

/-- Return value, counters and trace of one `fixlink` invocation. -/
structure FixResult where
  result : Nat
  stats : fixlinkStats
  events : List Event
deriving Repr, DecidableEq

/-- PrintErrorMessage (fixlink.cpp lines 48-56): prints a message for the
three recognized error codes and nothing otherwise. -/
def PrintErrorMessage (ErrorCode : Nat) (Path : List Char) : List Event :=
  if ErrorCode = ERROR_FILE_NOT_FOUND then [.msgFileNotFound Path]
  else if ErrorCode = ERROR_PATH_NOT_FOUND then [.msgPathNotFound Path]
  else if ErrorCode = ERROR_ACCESS_DENIED then [.msgAccessDenied Path]
  else []

/-- Model of the C runtime `_ttoi` digit loop: accumulate leading decimal
digits. -/
def ttoiDigits : List Char → Nat → Nat
  | [], acc => acc
  | c :: t, acc => if '0' ≤ c ∧ c ≤ '9' then ttoiDigits t (acc * 10 + (c.toNat - '0'.toNat)) else acc

/-- Model of the C runtime `_ttoi`: optional sign followed by leading
decimal digits (leading-whitespace skipping is irrelevant here and
omitted). -/
def ttoi : List Char → Int
  | '-' :: t => -(ttoiDigits t 0 : Int)
  | '+' :: t => (ttoiDigits t 0 : Int)
  | t => (ttoiDigits t 0 : Int)

/-- Modelled from the spec: `StrFind` from StringUtils (code not under
src/).  The option matching of §6 needs to locate an option token inside an
argument string: the result is the index of the first occurrence of `Find`
in `Str`, or -1 when there is none. -/
def StrFind (Str Find : List Char) : Int :=
  match Str with
  | [] => if Find.isEmpty then 0 else -1
  | _ :: t =>
    if Find.isPrefixOf Str then 0
    else
      let r := StrFind t Find
      if r < 0 then -1 else r + 1

/-- Replacement scan with explicit fuel (the fuel is only a termination
device; it never runs out when it starts at the length of the subject). -/
def strReplaceAux : Nat → List Char → List Char → List Char → List Char
  | _, [], _, _ => []
  | 0, T, _, _ => T
  | fuel + 1, c :: t, F, R =>
    if !F.isEmpty && F.isPrefixOf (c :: t) then
      R ++ strReplaceAux fuel ((c :: t).drop F.length) F R
    else
      c :: strReplaceAux fuel t F R

/-- Modelled from the spec: `StrReplace` from StringUtils (code not under
src/), per §4.2 step 3: replace every leftmost non-overlapping literal
occurrence of `F` in `T` by `R`. -/
def StrReplace (T F R : List Char) : List Char :=
  strReplaceAux T.length T F R

/-- The depth guard of fixlink.cpp line 70:
`Options.MaxDepth >= 0 && CurDepth > Options.MaxDepth`. -/
def depthGuard (opts : fixlinkOptions) (CurDepth : Int) : Bool :=
  decide (0 ≤ opts.MaxDepth) && decide (opts.MaxDepth < CurDepth)

/-- The junction case of the visit (fixlink.cpp lines 83-106): read the
target, substitute, delete, recreate, and report in verbose mode. -/
def junctionBranch (opts : fixlinkOptions) (i : NodeInfo) (Path : List Char)
    (stats : fixlinkStats) : FixResult :=
  match i.getTarget with
  | .ok Target =>
    let NewTarget := StrReplace Target opts.OldTargetBase opts.NewTargetBase
    let evs := [Event.getJunctionTarget Path,
      Event.strReplaceCall Target opts.OldTargetBase opts.NewTargetBase]
    if i.deleteResult = 0 then
      if i.createResult = 0 then
        if opts.bVerbose then
          ⟨0, stats, evs ++ [.deleteJunction Path, .createJunction Path NewTarget,
            .msgJunctionModified Path Target NewTarget]⟩
        else
          ⟨0, stats, evs ++ [.deleteJunction Path, .createJunction Path NewTarget]⟩
      else
        ⟨i.createResult, stats, evs ++ [.deleteJunction Path, .createJunction Path NewTarget]⟩
    else
      ⟨i.deleteResult, stats, evs ++ [.deleteJunction Path]⟩
  | .error e => ⟨e, stats, [.getJunctionTarget Path]⟩

/-- The symlink case of the visit (fixlink.cpp lines 107-130), symmetric to
the junction case. -/
def symlinkBranch (opts : fixlinkOptions) (i : NodeInfo) (Path : List Char)
    (stats : fixlinkStats) : FixResult :=
  match i.getTarget with
  | .ok Target =>
    let NewTarget := StrReplace Target opts.OldTargetBase opts.NewTargetBase
    let evs := [Event.getSymlinkTarget Path,
      Event.strReplaceCall Target opts.OldTargetBase opts.NewTargetBase]
    if i.deleteResult = 0 then
      if i.createResult = 0 then
        if opts.bVerbose then
          ⟨0, stats, evs ++ [.deleteSymlink Path, .createSymlink Path NewTarget,
            .msgSymlinkModified Path Target NewTarget]⟩
        else
          ⟨0, stats, evs ++ [.deleteSymlink Path, .createSymlink Path NewTarget]⟩
      else
        ⟨i.createResult, stats, evs ++ [.deleteSymlink Path, .createSymlink Path NewTarget]⟩
    else
      ⟨i.deleteResult, stats, evs ++ [.deleteSymlink Path]⟩
  | .error e => ⟨e, stats, [.getSymlinkTarget Path]⟩

/-- The reparse-point case of the visit (fixlink.cpp lines 80-140): try the
junction test, then the symlink test; when neither succeeds, read
GetLastError and count a skip only when it is zero. -/
def reparseBranch (opts : fixlinkOptions) (i : NodeInfo) (Path : List Char)
    (stats : fixlinkStats) : FixResult :=
  if i.isJunction then junctionBranch opts i Path stats
  else if i.isSymlink then symlinkBranch opts i Path stats
  else
    if i.kindLastError = 0 then
      ⟨0, { stats with NumSkipped := stats.NumSkipped + 1 }, [.msgUnrecognized Path]⟩
    else
      ⟨i.kindLastError, stats, []⟩

/-- The common exit of the visit (fixlink.cpp lines 203-210): a non-zero
result increments the failure counter and prints a message. -/
def failTail (body : FixResult) (Path : List Char) : FixResult :=
  if body.result ≠ 0 then
    ⟨body.result, { body.stats with NumFailed := body.stats.NumFailed + 1 },
      body.events ++ PrintErrorMessage body.result Path⟩
  else
    body

mutual
/-- The traversal/rewrite visit, translated from `fixlink` (fixlink.cpp
lines 65-211).  The subtree argument `t` supplies the platform answers for
`Path` and everything below it. -/
def fixlink (opts : fixlinkOptions) (t : FsNode) (Path : List Char) (CurDepth : Int)
    (stats : fixlinkStats) : FixResult :=
  if depthGuard opts CurDepth then
    ⟨0, stats, []⟩
  else
    failTail
      (match t with
      | .node i cs =>
        match i.attrQuery with
        | .ok attrs =>
          if attrs.reparsePoint then
            reparseBranch opts i Path stats
          else if attrs.directory then
            match i.enumQuery with
            | .ok _ =>
              let res := fixlinkChildren opts cs Path CurDepth stats 0
              ⟨res.result, res.stats, .enumDir Path :: res.events⟩
            | .error e =>
              if e = ERROR_ACCESS_DENIED then
                ⟨0, { stats with NumSkipped := stats.NumSkipped + 1 },
                  PrintErrorMessage ERROR_ACCESS_DENIED Path⟩
              else
                ⟨e, stats, []⟩
          else
            ⟨0, stats, []⟩
        | .error e => ⟨e, stats, []⟩)
      Path

/-- The FindFirstFile/FindNextFile loop of fixlink.cpp lines 155-177:
`result` is the running value of the local variable `result`, overwritten
by each recursive call on a qualifying child. -/
def fixlinkChildren (opts : fixlinkOptions) (cs : FsChildren) (Path : List Char)
    (CurDepth : Int) (stats : fixlinkStats) (result : Nat) : FixResult :=
  match cs with
  | .nil => ⟨result, stats, []⟩
  | .cons name c rest =>
    if name.length = 0 ∨ name = ['.'] ∨ name = ['.', '.'] then
      fixlinkChildren opts rest Path CurDepth stats result
    else if c.info.listedAttrs.directory || c.info.listedAttrs.reparsePoint then
      let filePath := Path ++ ['\\'] ++ name
      let res := fixlink opts c filePath (CurDepth + 1) stats
      let res2 := fixlinkChildren opts rest Path CurDepth res.stats res.result
      ⟨res2.result, res2.stats, res.events ++ res2.events⟩
    else
      fixlinkChildren opts rest Path CurDepth stats result
end

/-- Platform answers for a healthy junction with the given stored target:
attribute query succeeds with both bits set, the junction test succeeds,
the target read yields `target`, and delete/create both succeed. -/
def junctionInfo (target : List Char) : NodeInfo :=
  { attrQuery := .ok ⟨true, true⟩
    listedAttrs := ⟨true, true⟩
    isJunction := true
    isSymlink := false
    kindLastError := 0
    getTarget := .ok target
    deleteResult := 0
    createResult := 0
    enumQuery := .error 1 }

/-- Platform answers for an ordinary file: attribute query succeeds with
neither bit set; the link and enumeration answers are never consulted. -/
def plainFileInfo : NodeInfo :=
  { attrQuery := .ok ⟨false, false⟩
    listedAttrs := ⟨false, false⟩
    isJunction := false
    isSymlink := false
    kindLastError := 0
    getTarget := .error 1
    deleteResult := 1
    createResult := 1
    enumQuery := .error 1 }

/-- Platform answers for a path that does not exist: the attribute query
fails with the given error code. -/
def missingInfo (e : Nat) : NodeInfo :=
  { attrQuery := .error e
    listedAttrs := ⟨false, false⟩
    isJunction := false
    isSymlink := false
    kindLastError := 0
    getTarget := .error 1
    deleteResult := 1
    createResult := 1
    enumQuery := .error 1 }

/-- Platform answers for an enumerable directory: attribute query succeeds
with only the directory bit, and FindFirstFile succeeds. -/
def dirInfo : NodeInfo :=
  { attrQuery := .ok ⟨false, true⟩
    listedAttrs := ⟨false, true⟩
    isJunction := false
    isSymlink := false
    kindLastError := 0
    getTarget := .error 1
    deleteResult := 1
    createResult := 1
    enumQuery := .ok () }

/-- Sanity example: a junction whose target contains the old base is
rewritten. -/
example :
    (fixlink { OldTargetBase := ['o'], NewTargetBase := ['n'], MaxDepth := -1, bVerbose := false }
      (.node (junctionInfo ['o', 'x']) .nil)
      ['r'] 0 initialStats).result = 0 := by decide

/-- The literal "/VER". -/
def optVER : List Char := ['/', 'V', 'E', 'R']

/-- The literal "/ver". -/
def optVerLower : List Char := ['/', 'v', 'e', 'r']

/-- The literal "/?". -/
def optQuestion : List Char := ['/', '?']

/-- The literal "/LEV". -/
def optLEV : List Char := ['/', 'L', 'E', 'V']

/-- The literal "/lev". -/
def optLevLower : List Char := ['/', 'l', 'e', 'v']

/-- The literal "/V". -/
def optV : List Char := ['/', 'V']

/-- The literal "/v". -/
def optVLower : List Char := ['/', 'v']

/-- Outcome of the argument-parsing loop of `_tmain` (fixlink.cpp lines
256-287): an early exit for /VER or /?, or the accumulated options. -/
inductive ParseOutcome where
  | versionExit
  | usageExit
  | parsed (opts : fixlinkOptions)
deriving Repr, DecidableEq

/-- The argument-parsing loop of `_tmain` (fixlink.cpp lines 256-287),
processing `argv[i], argv[i+1], ...` given as the list `args`; the
lookahead test `i + 1 < argc` is `rest ≠ []`.  The first argument that
matches no option pattern and has a successor becomes `OldTargetBase`, its
successor `NewTargetBase`, and the loop breaks; a final argument matching
no option pattern is ignored. -/
def parseLoop : List (List Char) → fixlinkOptions → ParseOutcome
  | [], opts => .parsed opts
  | a :: rest, opts =>
    if 0 ≤ StrFind a optVER ∨ 0 ≤ StrFind a optVerLower then .versionExit
    else if 0 ≤ StrFind a optQuestion then .usageExit
    else if 0 ≤ StrFind a optLEV ∨ 0 ≤ StrFind a optLevLower then
      parseLoop rest { opts with MaxDepth := ttoi (a.drop 5) }
    else if 0 ≤ StrFind a optV ∨ 0 ≤ StrFind a optVLower then
      parseLoop rest { opts with bVerbose := true }
    else
      match rest with
      | b :: _ => .parsed { opts with OldTargetBase := a, NewTargetBase := b }
      | [] => parseLoop rest opts

/-- Exit code, counters, trace and the sequence of root paths passed to
`fixlink` by a run of `_tmain`.  `exit = none` records that the local
variable `result` was read without ever being assigned (possible when every
argument starts with '/'): the C program's behavior is undefined there. -/
structure MainResult where
  exit : Option Nat
  stats : fixlinkStats
  events : List Event
  processed : List (List Char)
deriving Repr, DecidableEq

/-- The root-processing loop of `_tmain` (fixlink.cpp lines 298-312) over
the remaining arguments: arguments whose first character is '/' are
skipped, every other argument is passed to `fixlink` at depth 0, and the
loop breaks at the first non-zero result.  `fs` maps a root path to the
subtree of platform answers below it. -/
def mainLoop (opts : fixlinkOptions) (fs : List Char → FsNode) :
    List (List Char) → fixlinkStats → Option Nat → MainResult
  | [], stats, result => ⟨result, stats, [], []⟩
  | a :: rest, stats, result =>
    if a.head? = some '/' then
      mainLoop opts fs rest stats result
    else
      let res := fixlink opts (fs a) a 0 stats
      if res.result ≠ 0 then
        ⟨some res.result, res.stats, res.events, [a]⟩
      else
        let r2 := mainLoop opts fs rest res.stats (some 0)
        ⟨r2.exit, r2.stats, res.events ++ r2.events, a :: r2.processed⟩

/-- `_tmain` (fixlink.cpp lines 250-326): parse arguments (with possible
/VER or /? early exit), reject fewer than 4 arguments, run `fixlink` on
each non-option argument, print the three-line summary, and force exit
code 1 when the summary shows failures although the last root returned 0.
`argv` includes the program name at position 0. -/
def tmain (fs : List Char → FsNode) (argv : List (List Char)) : MainResult :=
  match parseLoop argv.tail initialOptions with
  | .versionExit => ⟨some 0, initialStats, [.printVersion], []⟩
  | .usageExit => ⟨some 0, initialStats, [.printUsage], []⟩
  | .parsed opts =>
    if argv.length < 4 then
      ⟨some 1, initialStats, [.msgMissingArgs, .printUsage], []⟩
    else
      let res := mainLoop opts fs argv.tail initialStats none
      let events := res.events ++
        [.summary res.stats.NumModified res.stats.NumSkipped res.stats.NumFailed]
      let exit := match res.exit with
        | none => none
        | some r => if r = 0 ∧ 0 < res.stats.NumFailed then some 1 else some r
      ⟨exit, res.stats, events, res.processed⟩


/-- Platform answers for a healthy symlink with stored target `target`. -/
def symlinkInfo (target : List Char) : NodeInfo :=
  { attrQuery := .ok ⟨true, false⟩
    listedAttrs := ⟨true, false⟩
    isJunction := false
    isSymlink := true
    kindLastError := 0
    getTarget := .ok target
    deleteResult := 0
    createResult := 0
    enumQuery := .error 1 }

/-- Platform answers for a reparse point that is neither a junction nor a
symlink, with `e` the GetLastError value left by the failed kind tests. -/
def unrecognizedInfo (e : Nat) : NodeInfo :=
  { attrQuery := .ok ⟨true, false⟩
    listedAttrs := ⟨true, false⟩
    isJunction := false
    isSymlink := false
    kindLastError := e
    getTarget := .error 1
    deleteResult := 1
    createResult := 1
    enumQuery := .error 1 }

mutual
/-- Cut a subtree: `truncate 0` forgets the children of the node,
`truncate (k+1)` keeps the node and truncates every child at `k`. -/
def FsNode.truncate : Nat → FsNode → FsNode
  | 0, .node i _ => .node i .nil
  | k + 1, .node i cs => .node i (FsChildren.truncate k cs)
/-- Truncate every child subtree at depth `k`. -/
def FsChildren.truncate : Nat → FsChildren → FsChildren
  | _, .nil => .nil
  | k, .cons name c rest => .cons name (FsNode.truncate k c) (FsChildren.truncate k rest)
end

/-- Specification-side description of §8 *Substitution correctness*:
`ReplacesLeftmost F R T U` holds when `U` is `T` with every non-overlapping
leftmost occurrence of `F` replaced by `R`: scanning left to right, at a
position where `F` occurs the occurrence is replaced and the scan resumes
after it, and a position where `F` does not occur is copied. -/
inductive ReplacesLeftmost (F R : List Char) : List Char → List Char → Prop
  | nil : ReplacesLeftmost F R [] []
  | hit (t u : List Char) : ReplacesLeftmost F R t u →
      ReplacesLeftmost F R (F ++ t) (R ++ u)
  | miss (c : Char) (t u : List Char) : ¬ F <+: (c :: t) →
      ReplacesLeftmost F R t u → ReplacesLeftmost F R (c :: t) (c :: u)

/-- The common exit preserves the result value. -/
theorem failTail_result (b : FixResult) (Path : List Char) :
    (failTail b Path).result = b.result := by
  unfold failTail; split <;> rfl

/-- A zero result passes through the common exit unchanged. -/
theorem failTail_zero (b : FixResult) (Path : List Char) (h : b.result = 0) :
    failTail b Path = b := by
  unfold failTail; simp [h]

/-- The common exit never changes the modified counter. -/
theorem failTail_numModified (b : FixResult) (Path : List Char) :
    (failTail b Path).stats.NumModified = b.stats.NumModified := by
  unfold failTail; split <;> rfl

/-- The common exit never changes the skip counter. -/
theorem failTail_numSkipped (b : FixResult) (Path : List Char) :
    (failTail b Path).stats.NumSkipped = b.stats.NumSkipped := by
  unfold failTail; split <;> rfl

/-- With the depth guard false, visiting a node whose attribute query
succeeds with the reparse bit set runs the reparse branch and the common
exit, whatever the children are. -/
theorem fixlink_reparse_eq (opts : fixlinkOptions) (i : NodeInfo) (cs : FsChildren)
    (Path : List Char) (d : Int) (stats : fixlinkStats) (a : FileAttrs)
    (hg : depthGuard opts d = false) (hA : i.attrQuery = .ok a)
    (hr : a.reparsePoint = true) :
    fixlink opts (.node i cs) Path d stats = failTail (reparseBranch opts i Path stats) Path := by
  rw [fixlink.eq_def, hg]
  simp [hA, hr]

/-- With the depth guard false, visiting a node whose attribute query fails
with code `e` yields that code through the common exit. -/
theorem fixlink_attrs_error_eq (opts : fixlinkOptions) (i : NodeInfo) (cs : FsChildren)
    (Path : List Char) (d : Int) (stats : fixlinkStats) (e : Nat)
    (hg : depthGuard opts d = false) (hA : i.attrQuery = .error e) :
    fixlink opts (.node i cs) Path d stats = failTail ⟨e, stats, []⟩ Path := by
  rw [fixlink.eq_def, hg]
  simp [hA]

/-- With the depth guard false, visiting a node with neither attribute bit
set does nothing. -/
theorem fixlink_plain_eq (opts : fixlinkOptions) (i : NodeInfo) (cs : FsChildren)
    (Path : List Char) (d : Int) (stats : fixlinkStats) (a : FileAttrs)
    (hg : depthGuard opts d = false) (hA : i.attrQuery = .ok a)
    (hr : a.reparsePoint = false) (hd : a.directory = false) :
    fixlink opts (.node i cs) Path d stats = ⟨0, stats, []⟩ := by
  rw [fixlink.eq_def, hg]
  simp [hA, hr, hd, failTail]

/-- With the depth guard false, visiting a directory whose enumeration
succeeds runs the child loop and prepends the enumeration to the trace. -/
theorem fixlink_dir_eq (opts : fixlinkOptions) (i : NodeInfo) (cs : FsChildren)
    (Path : List Char) (d : Int) (stats : fixlinkStats) (a : FileAttrs)
    (hg : depthGuard opts d = false) (hA : i.attrQuery = .ok a)
    (hr : a.reparsePoint = false) (hd : a.directory = true) (he : i.enumQuery = .ok ()) :
    fixlink opts (.node i cs) Path d stats =
      failTail ⟨(fixlinkChildren opts cs Path d stats 0).result,
        (fixlinkChildren opts cs Path d stats 0).stats,
        .enumDir Path :: (fixlinkChildren opts cs Path d stats 0).events⟩ Path := by
  rw [fixlink.eq_def, hg]
  simp [hA, hr, hd, he]

/-- With the depth guard false, a directory whose enumeration fails with
access denied is counted as a skip and succeeds. -/
theorem fixlink_dir_denied_eq (opts : fixlinkOptions) (i : NodeInfo) (cs : FsChildren)
    (Path : List Char) (d : Int) (stats : fixlinkStats) (a : FileAttrs)
    (hg : depthGuard opts d = false) (hA : i.attrQuery = .ok a)
    (hr : a.reparsePoint = false) (hd : a.directory = true)
    (he : i.enumQuery = .error ERROR_ACCESS_DENIED) :
    fixlink opts (.node i cs) Path d stats =
      ⟨0, { stats with NumSkipped := stats.NumSkipped + 1 }, [.msgAccessDenied Path]⟩ := by
  rw [fixlink.eq_def, hg]
  simp [hA, hr, hd, he, failTail, PrintErrorMessage, ERROR_ACCESS_DENIED,
    ERROR_FILE_NOT_FOUND, ERROR_PATH_NOT_FOUND]

/-- With the depth guard false, a directory whose enumeration fails with
any other code yields that code through the common exit. -/
theorem fixlink_dir_erro_eq (opts : fixlinkOptions) (i : NodeInfo) (cs : FsChildren)
    (Path : List Char) (d : Int) (stats : fixlinkStats) (a : FileAttrs) (e : Nat)
    (hg : depthGuard opts d = false) (hA : i.attrQuery = .ok a)
    (hr : a.reparsePoint = false) (hd : a.directory = true)
    (he : i.enumQuery = .error e) (hne : e ≠ ERROR_ACCESS_DENIED) :
    fixlink opts (.node i cs) Path d stats = failTail ⟨e, stats, []⟩ Path := by
  rw [fixlink.eq_def, hg]
  simp [hA, hr, hd, he, hne]

/-- The junction branch never changes the counters. -/
theorem junctionBranch_stats (opts : fixlinkOptions) (i : NodeInfo) (Path : List Char)
    (stats : fixlinkStats) : (junctionBranch opts i Path stats).stats = stats := by
  unfold junctionBranch
  repeat' split
  all_goals rfl

/-- The symlink branch never changes the counters. -/
theorem symlinkBranch_stats (opts : fixlinkOptions) (i : NodeInfo) (Path : List Char)
    (stats : fixlinkStats) : (symlinkBranch opts i Path stats).stats = stats := by
  unfold symlinkBranch
  repeat' split
  all_goals rfl

/-- The reparse branch never changes the modified counter. -/
theorem reparseBranch_numModified (opts : fixlinkOptions) (i : NodeInfo) (Path : List Char)
    (stats : fixlinkStats) :
    (reparseBranch opts i Path stats).stats.NumModified = stats.NumModified := by
  unfold reparseBranch
  split
  · rw [junctionBranch_stats]
  · split
    · rw [symlinkBranch_stats]
    · split <;> rfl

mutual
/-- No code path of the visit increments the modified counter. -/
theorem fixlink_numModified (opts : fixlinkOptions) (t : FsNode) (Path : List Char)
    (d : Int) (stats : fixlinkStats) :
    (fixlink opts t Path d stats).stats.NumModified = stats.NumModified := by
  cases t with
  | node i cs =>
    rw [fixlink.eq_def]
    split
    · rfl
    · rw [failTail_numModified]
      cases hA : i.attrQuery with
      | error e => simp [hA]
      | ok a =>
        cases hr : a.reparsePoint with
        | true => simp [hA, hr, reparseBranch_numModified]
        | false =>
          cases hd : a.directory with
          | false => simp [hA, hr, hd]
          | true =>
            cases he : i.enumQuery with
            | ok u => simp [hA, hr, hd, he, fixlinkChildren_numModified]
            | error e => simp [hA, hr, hd, he]; split <;> rfl

/-- No code path of the child loop increments the modified counter. -/
theorem fixlinkChildren_numModified (opts : fixlinkOptions) (cs : FsChildren)
    (Path : List Char) (d : Int) (stats : fixlinkStats) (r : Nat) :
    (fixlinkChildren opts cs Path d stats r).stats.NumModified = stats.NumModified := by
  cases cs with
  | nil => rfl
  | cons name c rest =>
    simp only [fixlinkChildren]
    split
    · rw [fixlinkChildren_numModified]
    · split
      · dsimp only
        rw [fixlinkChildren_numModified, fixlink_numModified]
      · rw [fixlinkChildren_numModified]
end

/-- The fuelled scan satisfies the leftmost-replacement specification as
soon as the fuel covers the subject. -/
theorem strReplaceAux_replaces (F R : List Char) (hF : F ≠ []) :
    ∀ fuel T, T.length ≤ fuel → ReplacesLeftmost F R T (strReplaceAux fuel T F R) := by
  intro fuel
  induction fuel with
  | zero =>
    intro T hT
    cases T with
    | nil => exact .nil
    | cons c t => simp at hT
  | succ n ih =>
    intro T hT
    cases T with
    | nil => exact .nil
    | cons c t =>
      simp only [strReplaceAux]
      split
      next h =>
        have hp : F <+: (c :: t) := by
          have h2 := (Bool.and_eq_true _ _).mp h
          exact List.isPrefixOf_iff_prefix.mp h2.2
        obtain ⟨s, hs⟩ := hp
        have hdrop : (c :: t).drop F.length = s := by rw [← hs, List.drop_left]
        have hFlen : 0 < F.length := List.length_pos.mpr hF
        have hslen : s.length ≤ n := by
          have hlen : F.length + s.length = t.length + 1 := by
            have h3 := congrArg List.length hs
            simpa using h3
          have h4 : t.length + 1 ≤ n + 1 := by simpa using hT
          omega
        rw [hdrop, ← hs]
        exact .hit s _ (ih s hslen)
      next h =>
        have hnp : ¬ F <+: (c :: t) := by
          intro hc
          apply h
          have h1 : F.isEmpty = false := by
            cases F with
            | nil => exact absurd rfl hF
            | cons x xs => rfl
          simp [h1, List.isPrefixOf_iff_prefix.mpr hc]
        have htlen : t.length ≤ n := by
          have h4 : t.length + 1 ≤ n + 1 := by simpa using hT
          omega
        exact .miss c t _ hnp (ih t htlen)

/-- When the pattern occurs nowhere in the subject, the fuelled scan copies
the subject. -/
theorem strReplaceAux_no_occurrence (F R : List Char) :
    ∀ fuel T, ¬ F <:+: T → strReplaceAux fuel T F R = T := by
  intro fuel
  induction fuel with
  | zero =>
    intro T h
    cases T <;> rfl
  | succ n ih =>
    intro T h
    cases T with
    | nil => rfl
    | cons c t =>
      simp only [strReplaceAux]
      split
      next hb =>
        exfalso
        have hp : F <+: (c :: t) := List.isPrefixOf_iff_prefix.mp ((Bool.and_eq_true _ _).mp hb).2
        exact h hp.isInfix
      next hb =>
        rw [ih t (fun hc => h (List.infix_cons hc))]

/-- Truncation preserves the platform answers at the root of a subtree. -/
theorem FsNode.truncate_info (k : Nat) (t : FsNode) : (FsNode.truncate k t).info = t.info := by
  cases k <;> cases t <;> rfl

mutual
/-- With a non-negative depth limit, a visit at depth `d` cannot observe
anything of the tree that truncation at `k` removes, provided the limit is
reached within `k` more levels: the run on the truncated tree is literally
equal to the run on the full tree. -/
theorem fixlink_truncate (k : Nat) (opts : fixlinkOptions) (t : FsNode)
    (Path : List Char) (d : Int) (stats : fixlinkStats)
    (h0 : 0 ≤ opts.MaxDepth) (hk : opts.MaxDepth + 1 ≤ d + k) :
    fixlink opts (FsNode.truncate k t) Path d stats = fixlink opts t Path d stats := by
  cases k with
  | zero =>
    have hg : depthGuard opts d = true := by
      unfold depthGuard
      simp only [Bool.and_eq_true, decide_eq_true_eq]
      omega
    rw [fixlink.eq_def, fixlink.eq_def, hg]
    simp
  | succ n =>
    cases hgc : depthGuard opts d with
    | true =>
      rw [fixlink.eq_def, fixlink.eq_def, hgc]
      simp
    | false =>
      cases t with
      | node i cs =>
        show fixlink opts (FsNode.truncate (n + 1) (.node i cs)) Path d stats = _
        rw [fixlink.eq_def, fixlink.eq_def, hgc]
        simp only [FsNode.truncate, Bool.false_eq_true, if_false]
        congr 1
        cases hA : i.attrQuery with
        | error e => simp [hA]
        | ok a =>
          simp only [hA]
          by_cases hr : a.reparsePoint = true
          · simp [hr]
          · simp only [hr, Bool.false_eq_true, if_false]
            by_cases hd : a.directory = true
            · simp only [hd, if_true]
              cases he : i.enumQuery with
              | ok u => simp only [he, fixlinkChildren_truncate n opts cs Path d stats 0 h0 (by omega)]
              | error e => simp [he]
            · simp [hd]

/-- Companion of `fixlink_truncate` for the child loop: the children are
visited at depth `d + 1`. -/
theorem fixlinkChildren_truncate (n : Nat) (opts : fixlinkOptions) (cs : FsChildren)
    (Path : List Char) (d : Int) (stats : fixlinkStats) (r : Nat)
    (h0 : 0 ≤ opts.MaxDepth) (hk : opts.MaxDepth + 1 ≤ (d + 1) + n) :
    fixlinkChildren opts (FsChildren.truncate n cs) Path d stats r =
      fixlinkChildren opts cs Path d stats r := by
  cases cs with
  | nil => rfl
  | cons name c rest =>
    simp only [FsChildren.truncate, fixlinkChildren, FsNode.truncate_info]
    by_cases h1 : name.length = 0 ∨ name = ['.'] ∨ name = ['.', '.']
    · simp only [if_pos h1]
      exact fixlinkChildren_truncate n opts rest Path d stats r h0 hk
    · simp only [if_neg h1]
      by_cases h2 : (c.info.listedAttrs.directory || c.info.listedAttrs.reparsePoint) = true
      · simp only [if_pos h2]
        rw [fixlink_truncate n opts c (Path ++ ['\\'] ++ name) (d + 1) stats h0 (by omega),
          fixlinkChildren_truncate n opts rest Path d _ _ h0 hk]
      · simp only [if_neg h2]
        exact fixlinkChildren_truncate n opts rest Path d stats r h0 hk
end

/-- PrintErrorMessage emits no substitution event. -/
theorem PrintErrorMessage_no_strReplaceCall (e : Nat) (Path tg F R : List Char) :
    Event.strReplaceCall tg F R ∉ PrintErrorMessage e Path := by
  unfold PrintErrorMessage
  repeat' split
  all_goals simp

/-- A substitution event surviving the common exit came from the body. -/
theorem failTail_strReplaceCall (b : FixResult) (Path tg F R : List Char)
    (h : Event.strReplaceCall tg F R ∈ (failTail b Path).events) :
    Event.strReplaceCall tg F R ∈ b.events := by
  unfold failTail at h
  split at h
  · simp only [List.mem_append] at h
    rcases h with h | h
    · exact h
    · exact absurd h (PrintErrorMessage_no_strReplaceCall _ _ _ _ _)
  · exact h

/-- Substitution events of the junction branch carry the configured bases. -/
theorem junctionBranch_strReplaceCall (opts : fixlinkOptions) (i : NodeInfo)
    (Path tg F R : List Char) (stats : fixlinkStats)
    (h : Event.strReplaceCall tg F R ∈ (junctionBranch opts i Path stats).events) :
    F = opts.OldTargetBase ∧ R = opts.NewTargetBase := by
  unfold junctionBranch at h
  split at h
  all_goals (repeat' split at h)
  all_goals simp_all

/-- Substitution events of the symlink branch carry the configured bases. -/
theorem symlinkBranch_strReplaceCall (opts : fixlinkOptions) (i : NodeInfo)
    (Path tg F R : List Char) (stats : fixlinkStats)
    (h : Event.strReplaceCall tg F R ∈ (symlinkBranch opts i Path stats).events) :
    F = opts.OldTargetBase ∧ R = opts.NewTargetBase := by
  unfold symlinkBranch at h
  split at h
  all_goals (repeat' split at h)
  all_goals simp_all

/-- Substitution events of the reparse branch carry the configured bases. -/
theorem reparseBranch_strReplaceCall (opts : fixlinkOptions) (i : NodeInfo)
    (Path tg F R : List Char) (stats : fixlinkStats)
    (h : Event.strReplaceCall tg F R ∈ (reparseBranch opts i Path stats).events) :
    F = opts.OldTargetBase ∧ R = opts.NewTargetBase := by
  unfold reparseBranch at h
  split at h
  · exact junctionBranch_strReplaceCall opts i Path tg F R stats h
  · split at h
    · exact symlinkBranch_strReplaceCall opts i Path tg F R stats h
    · split at h <;> simp_all

mutual
/-- Every substitution event in a visit's trace carries the configured
bases: `StrReplace` is only ever called with `Options.OldTargetBase` and
`Options.NewTargetBase`. -/
theorem fixlink_strReplaceCall (opts : fixlinkOptions) (t : FsNode) (Path : List Char)
    (d : Int) (stats : fixlinkStats) (tg F R : List Char)
    (h : Event.strReplaceCall tg F R ∈ (fixlink opts t Path d stats).events) :
    F = opts.OldTargetBase ∧ R = opts.NewTargetBase := by
  cases t with
  | node i cs =>
    rw [fixlink.eq_def] at h
    split at h
    · simp at h
    · have h1 := failTail_strReplaceCall _ _ _ _ _ h
      dsimp only at h1
      cases hA : i.attrQuery with
      | error e => rw [hA] at h1; simp at h1
      | ok a =>
        rw [hA] at h1
        dsimp only at h1
        by_cases hr : a.reparsePoint = true
        · rw [if_pos hr] at h1
          exact reparseBranch_strReplaceCall opts i Path tg F R stats h1
        · rw [if_neg hr] at h1
          by_cases hd : a.directory = true
          · rw [if_pos hd] at h1
            cases he : i.enumQuery with
            | ok u =>
              rw [he] at h1
              dsimp only at h1
              simp only [List.mem_cons] at h1
              rcases h1 with h1 | h1
              · exact absurd h1 (by simp)
              · exact fixlinkChildren_strReplaceCall opts cs Path d stats 0 tg F R h1
            | error e =>
              rw [he] at h1
              dsimp only at h1
              split at h1
              · dsimp only at h1
                exact absurd h1 (PrintErrorMessage_no_strReplaceCall _ _ _ _ _)
              · simp at h1
          · rw [if_neg hd] at h1
            simp at h1

/-- Companion of `fixlink_strReplaceCall` for the child loop. -/
theorem fixlinkChildren_strReplaceCall (opts : fixlinkOptions) (cs : FsChildren)
    (Path : List Char) (d : Int) (stats : fixlinkStats) (r : Nat) (tg F R : List Char)
    (h : Event.strReplaceCall tg F R ∈ (fixlinkChildren opts cs Path d stats r).events) :
    F = opts.OldTargetBase ∧ R = opts.NewTargetBase := by
  cases cs with
  | nil => simp [fixlinkChildren] at h
  | cons name c rest =>
    simp only [fixlinkChildren] at h
    split at h
    · exact fixlinkChildren_strReplaceCall opts rest Path d stats r tg F R h
    · split at h
      · simp only [List.mem_append] at h
        rcases h with h | h
        · exact fixlink_strReplaceCall opts c _ _ _ tg F R h
        · exact fixlinkChildren_strReplaceCall opts rest Path d _ _ tg F R h
      · exact fixlinkChildren_strReplaceCall opts rest Path d stats r tg F R h
end

/-- Every substitution event of the driver loop carries the configured
bases. -/
theorem mainLoop_strReplaceCall (opts : fixlinkOptions) (fs : List Char → FsNode) :
    ∀ (args : List (List Char)) (stats : fixlinkStats) (r0 : Option Nat) (tg F R : List Char),
    Event.strReplaceCall tg F R ∈ (mainLoop opts fs args stats r0).events →
    F = opts.OldTargetBase ∧ R = opts.NewTargetBase := by
  intro args
  induction args with
  | nil => intro stats r0 tg F R h; simp [mainLoop] at h
  | cons a rest ih =>
    intro stats r0 tg F R h
    simp only [mainLoop] at h
    split at h
    · exact ih stats r0 tg F R h
    · split at h
      · exact fixlink_strReplaceCall opts (fs a) a 0 stats tg F R h
      · simp only [List.mem_append] at h
        rcases h with h | h
        · exact fixlink_strReplaceCall opts (fs a) a 0 stats tg F R h
        · exact ih _ _ tg F R h

/-- A non-zero body result is failed-counted and reported by the common
exit. -/
theorem failTail_nonzero (b : FixResult) (Path : List Char) (h : b.result ≠ 0) :
    failTail b Path = ⟨b.result, { b.stats with NumFailed := b.stats.NumFailed + 1 },
      b.events ++ PrintErrorMessage b.result Path⟩ := by
  unfold failTail
  simp [h]

/-- Body events survive the common exit. -/
theorem failTail_events_mem (b : FixResult) (Path : List Char) (ev : Event)
    (h : ev ∈ b.events) : ev ∈ (failTail b Path).events := by
  unfold failTail
  split
  · exact List.mem_append.mpr (Or.inl h)
  · exact h

/-- Events after the common exit come from the body or from
PrintErrorMessage. -/
theorem failTail_events_sub (b : FixResult) (Path : List Char) (ev : Event)
    (h : ev ∈ (failTail b Path).events) :
    ev ∈ b.events ∨ ev ∈ PrintErrorMessage b.result Path := by
  unfold failTail at h
  split at h
  · exact List.mem_append.mp h
  · exact Or.inl h

/-- With a successful junction test the reparse branch is the junction
branch. -/
theorem reparseBranch_junction (opts : fixlinkOptions) (i : NodeInfo) (Path : List Char)
    (stats : fixlinkStats) (h : i.isJunction = true) :
    reparseBranch opts i Path stats = junctionBranch opts i Path stats := by
  unfold reparseBranch
  rw [h]
  simp

/-- With a failed junction test and a successful symlink test the reparse
branch is the symlink branch. -/
theorem reparseBranch_symlink (opts : fixlinkOptions) (i : NodeInfo) (Path : List Char)
    (stats : fixlinkStats) (hj : i.isJunction = false) (hs : i.isSymlink = true) :
    reparseBranch opts i Path stats = symlinkBranch opts i Path stats := by
  unfold reparseBranch
  rw [hj, hs]
  simp

/-- With both kind tests failed, the reparse branch skips when the ambient
last error is zero and fails with that error otherwise. -/
theorem reparseBranch_unrecognized (opts : fixlinkOptions) (i : NodeInfo) (Path : List Char)
    (stats : fixlinkStats) (hj : i.isJunction = false) (hs : i.isSymlink = false) :
    reparseBranch opts i Path stats =
      if i.kindLastError = 0 then
        ⟨0, { stats with NumSkipped := stats.NumSkipped + 1 }, [.msgUnrecognized Path]⟩
      else
        ⟨i.kindLastError, stats, []⟩ := by
  unfold reparseBranch
  rw [hj, hs]
  simp

/-- A failed target read makes the junction branch fail with that code. -/
theorem junctionBranch_read_error (opts : fixlinkOptions) (i : NodeInfo) (Path : List Char)
    (stats : fixlinkStats) (e : Nat) (h : i.getTarget = .error e) :
    junctionBranch opts i Path stats = ⟨e, stats, [.getJunctionTarget Path]⟩ := by
  unfold junctionBranch
  rw [h]

/-- A failed delete makes the junction branch fail with that code, after
the delete was attempted. -/
theorem junctionBranch_delete_error (opts : fixlinkOptions) (i : NodeInfo) (Path : List Char)
    (stats : fixlinkStats) (tgt : List Char) (h : i.getTarget = .ok tgt)
    (hd : i.deleteResult ≠ 0) :
    junctionBranch opts i Path stats = ⟨i.deleteResult, stats,
      [.getJunctionTarget Path,
       .strReplaceCall tgt opts.OldTargetBase opts.NewTargetBase,
       .deleteJunction Path]⟩ := by
  unfold junctionBranch
  rw [h]
  simp [hd]

/-- A failed create makes the junction branch fail with that code, after
delete and create were both attempted. -/
theorem junctionBranch_create_error (opts : fixlinkOptions) (i : NodeInfo) (Path : List Char)
    (stats : fixlinkStats) (tgt : List Char) (h : i.getTarget = .ok tgt)
    (hd : i.deleteResult = 0) (hc : i.createResult ≠ 0) :
    junctionBranch opts i Path stats = ⟨i.createResult, stats,
      [.getJunctionTarget Path,
       .strReplaceCall tgt opts.OldTargetBase opts.NewTargetBase,
       .deleteJunction Path,
       .createJunction Path (StrReplace tgt opts.OldTargetBase opts.NewTargetBase)]⟩ := by
  unfold junctionBranch
  rw [h]
  simp [hd, hc]

/-- Whenever the target read succeeds, the junction branch attempts the
delete. -/
theorem junctionBranch_delete_mem (opts : fixlinkOptions) (i : NodeInfo) (Path : List Char)
    (stats : fixlinkStats) (tgt : List Char) (h : i.getTarget = .ok tgt) :
    Event.deleteJunction Path ∈ (junctionBranch opts i Path stats).events := by
  unfold junctionBranch
  rw [h]
  dsimp only
  repeat' split
  all_goals simp

/-- Whenever the target read and the delete succeed, the junction branch
attempts the create with the substituted target. -/
theorem junctionBranch_create_mem (opts : fixlinkOptions) (i : NodeInfo) (Path : List Char)
    (stats : fixlinkStats) (tgt : List Char) (h : i.getTarget = .ok tgt)
    (hd : i.deleteResult = 0) :
    Event.createJunction Path (StrReplace tgt opts.OldTargetBase opts.NewTargetBase) ∈
      (junctionBranch opts i Path stats).events := by
  unfold junctionBranch
  rw [h]
  dsimp only
  rw [if_pos hd]
  repeat' split
  all_goals simp

/-- The reparse branch (and so the rewriter) never enumerates a
directory. -/
theorem reparseBranch_no_enumDir (opts : fixlinkOptions) (i : NodeInfo) (Path : List Char)
    (stats : fixlinkStats) (p : List Char) :
    Event.enumDir p ∉ (reparseBranch opts i Path stats).events := by
  unfold reparseBranch junctionBranch symlinkBranch
  repeat' split
  all_goals simp

/-- PrintErrorMessage emits no enumeration event. -/
theorem PrintErrorMessage_no_enumDir (e : Nat) (Path p : List Char) :
    Event.enumDir p ∉ PrintErrorMessage e Path := by
  unfold PrintErrorMessage
  repeat' split
  all_goals simp

/-- C10: for every existing filesystem object whose attributes carry
neither the reparse-point bit nor the directory bit, the visit returns
success and leaves the counters unchanged, performing no link operation,
no enumeration and no output (the trace is empty). -/
theorem claim_C10 (opts : fixlinkOptions) (i : NodeInfo) (cs : FsChildren)
    (Path : List Char) (d : Int) (stats : fixlinkStats)
    (hA : i.attrQuery = .ok ⟨false, false⟩) :
    fixlink opts (.node i cs) Path d stats = ⟨0, stats, []⟩ := by
  cases hg : depthGuard opts d with
  | true =>
    rw [fixlink.eq_def, hg]
    simp
  | false => exact fixlink_plain_eq opts i cs Path d stats ⟨false, false⟩ hg hA rfl rfl

/-- Witness for C10 at a concrete ordinary file. -/
theorem claim_C10_witness :
    fixlink initialOptions (.node plainFileInfo .nil) ['p'] 0 initialStats =
      ⟨0, initialStats, []⟩ :=
  claim_C10 initialOptions plainFileInfo .nil ['p'] 0 initialStats rfl

/-- C6: an object flagged as both directory and reparse point is always
handled by the reparse branch: the visit is independent of the directory's
children (it never recurses into them) and its trace never contains an
enumeration of the path. -/
theorem claim_C6 (opts : fixlinkOptions) (i : NodeInfo) (cs cs2 : FsChildren)
    (Path : List Char) (d : Int) (stats : fixlinkStats)
    (hA : i.attrQuery = .ok ⟨true, true⟩) :
    fixlink opts (.node i cs) Path d stats = fixlink opts (.node i cs2) Path d stats ∧
    Event.enumDir Path ∉ (fixlink opts (.node i cs) Path d stats).events := by
  cases hg : depthGuard opts d with
  | true =>
    rw [fixlink.eq_def, fixlink.eq_def, hg]
    simp
  | false =>
    rw [fixlink_reparse_eq opts i cs Path d stats ⟨true, true⟩ hg hA rfl,
        fixlink_reparse_eq opts i cs2 Path d stats ⟨true, true⟩ hg hA rfl]
    refine ⟨rfl, fun hmem => ?_⟩
    rcases failTail_events_sub _ _ _ hmem with h | h
    · exact reparseBranch_no_enumDir opts i Path stats Path h
    · exact PrintErrorMessage_no_enumDir _ Path Path h

/-- Witness for C6 at a concrete junction whose node carries a child
list. -/
theorem claim_C6_witness :
    fixlink initialOptions (.node (junctionInfo ['t']) (.cons ['c'] (.node plainFileInfo .nil) .nil))
        ['r'] 0 initialStats =
      fixlink initialOptions (.node (junctionInfo ['t']) .nil) ['r'] 0 initialStats ∧
    Event.enumDir ['r'] ∉
      (fixlink initialOptions (.node (junctionInfo ['t'])
        (.cons ['c'] (.node plainFileInfo .nil) .nil)) ['r'] 0 initialStats).events :=
  claim_C6 initialOptions (junctionInfo ['t'])
    (.cons ['c'] (.node plainFileInfo .nil) .nil) .nil ['r'] 0 initialStats rfl

/-- Counterexample to C7 as stated: a reparse point failing both kind
tests with a non-zero ambient last error (here 5, access denied) is NOT
skipped: the visit returns 5, leaves the skip counter at 0 and counts a
failure instead. -/
theorem claim_C7_counterexample :
    (fixlink initialOptions (.node (unrecognizedInfo 5) .nil) ['u'] 0 initialStats).result = 5 ∧
    (fixlink initialOptions (.node (unrecognizedInfo 5) .nil) ['u'] 0 initialStats).stats.NumSkipped = 0 ∧
    (fixlink initialOptions (.node (unrecognizedInfo 5) .nil) ['u'] 0 initialStats).stats.NumFailed = 1 := by
  decide

/-- C7 (amended): when both kind tests fail, the code reads GetLastError;
only when it is zero is the reparse point skipped (counted, reported,
success); when it is non-zero the visit fails with that code instead. -/
theorem claim_C7 (opts : fixlinkOptions) (i : NodeInfo) (cs : FsChildren) (Path : List Char)
    (d : Int) (stats : fixlinkStats) (b : Bool)
    (hg : depthGuard opts d = false) (hA : i.attrQuery = .ok ⟨true, b⟩)
    (hj : i.isJunction = false) (hs : i.isSymlink = false) :
    (i.kindLastError = 0 →
      fixlink opts (.node i cs) Path d stats =
        ⟨0, { stats with NumSkipped := stats.NumSkipped + 1 }, [.msgUnrecognized Path]⟩) ∧
    (i.kindLastError ≠ 0 →
      fixlink opts (.node i cs) Path d stats =
        ⟨i.kindLastError, { stats with NumFailed := stats.NumFailed + 1 },
          PrintErrorMessage i.kindLastError Path⟩) := by
  rw [fixlink_reparse_eq opts i cs Path d stats ⟨true, b⟩ hg hA rfl,
      reparseBranch_unrecognized opts i Path stats hj hs]
  constructor
  · intro h0
    rw [if_pos h0]
    exact failTail_zero _ _ rfl
  · intro h0
    rw [if_neg h0, failTail_nonzero _ _ h0]
    simp

/-- Witness for the amended C7 at a concrete unrecognized reparse point
with ambient last error zero. -/
theorem claim_C7_witness :
    fixlink initialOptions (.node (unrecognizedInfo 0) .nil) ['u'] 0 initialStats =
      ⟨0, { initialStats with NumSkipped := initialStats.NumSkipped + 1 },
        [.msgUnrecognized ['u']]⟩ :=
  (claim_C7 initialOptions (unrecognizedInfo 0) .nil ['u'] 0 initialStats false
    (by decide) rfl rfl rfl).1 rfl

/-- C3: error-propagation policy.  (1) Enumeration access-denial is
recovered locally: skip counted, diagnostic printed, success returned.
(2) Any other non-zero enumeration failure, (3) attribute-query failure,
(4) junction target-read failure, (5) delete failure and (6) create
failure make the visit itself return that non-zero code (propagation up
exactly one level) and count one failure.  (7) A non-zero result of a
root-level visit makes the driver loop stop: no later argument is
processed. -/
theorem claim_C3 :
    (∀ (opts : fixlinkOptions) (i : NodeInfo) (cs : FsChildren) (Path : List Char)
      (d : Int) (stats : fixlinkStats), depthGuard opts d = false →
      i.attrQuery = .ok ⟨false, true⟩ → i.enumQuery = .error ERROR_ACCESS_DENIED →
      fixlink opts (.node i cs) Path d stats =
        ⟨0, { stats with NumSkipped := stats.NumSkipped + 1 }, [.msgAccessDenied Path]⟩) ∧
    (∀ (opts : fixlinkOptions) (i : NodeInfo) (cs : FsChildren) (Path : List Char)
      (d : Int) (stats : fixlinkStats) (e : Nat), depthGuard opts d = false →
      i.attrQuery = .ok ⟨false, true⟩ → i.enumQuery = .error e →
      e ≠ ERROR_ACCESS_DENIED → e ≠ 0 →
      (fixlink opts (.node i cs) Path d stats).result = e ∧
      (fixlink opts (.node i cs) Path d stats).stats.NumFailed = stats.NumFailed + 1) ∧
    (∀ (opts : fixlinkOptions) (i : NodeInfo) (cs : FsChildren) (Path : List Char)
      (d : Int) (stats : fixlinkStats) (e : Nat), depthGuard opts d = false →
      i.attrQuery = .error e → e ≠ 0 →
      (fixlink opts (.node i cs) Path d stats).result = e ∧
      (fixlink opts (.node i cs) Path d stats).stats.NumFailed = stats.NumFailed + 1) ∧
    (∀ (opts : fixlinkOptions) (i : NodeInfo) (cs : FsChildren) (Path : List Char)
      (d : Int) (stats : fixlinkStats) (b : Bool) (e : Nat), depthGuard opts d = false →
      i.attrQuery = .ok ⟨true, b⟩ → i.isJunction = true → i.getTarget = .error e → e ≠ 0 →
      (fixlink opts (.node i cs) Path d stats).result = e ∧
      (fixlink opts (.node i cs) Path d stats).stats.NumFailed = stats.NumFailed + 1) ∧
    (∀ (opts : fixlinkOptions) (i : NodeInfo) (cs : FsChildren) (Path : List Char)
      (d : Int) (stats : fixlinkStats) (b : Bool) (tgt : List Char), depthGuard opts d = false →
      i.attrQuery = .ok ⟨true, b⟩ → i.isJunction = true → i.getTarget = .ok tgt →
      i.deleteResult ≠ 0 →
      (fixlink opts (.node i cs) Path d stats).result = i.deleteResult ∧
      (fixlink opts (.node i cs) Path d stats).stats.NumFailed = stats.NumFailed + 1) ∧
    (∀ (opts : fixlinkOptions) (i : NodeInfo) (cs : FsChildren) (Path : List Char)
      (d : Int) (stats : fixlinkStats) (b : Bool) (tgt : List Char), depthGuard opts d = false →
      i.attrQuery = .ok ⟨true, b⟩ → i.isJunction = true → i.getTarget = .ok tgt →
      i.deleteResult = 0 → i.createResult ≠ 0 →
      (fixlink opts (.node i cs) Path d stats).result = i.createResult ∧
      (fixlink opts (.node i cs) Path d stats).stats.NumFailed = stats.NumFailed + 1) ∧
    (∀ (opts : fixlinkOptions) (fs : List Char → FsNode) (a : List Char)
      (rest : List (List Char)) (stats : fixlinkStats) (r0 : Option Nat),
      a.head? ≠ some '/' → (fixlink opts (fs a) a 0 stats).result ≠ 0 →
      mainLoop opts fs (a :: rest) stats r0 =
        ⟨some (fixlink opts (fs a) a 0 stats).result, (fixlink opts (fs a) a 0 stats).stats,
          (fixlink opts (fs a) a 0 stats).events, [a]⟩) := by
  refine ⟨?_, ?_, ?_, ?_, ?_, ?_, ?_⟩
  · intro opts i cs Path d stats hg hA he
    exact fixlink_dir_denied_eq opts i cs Path d stats ⟨false, true⟩ hg hA rfl rfl he
  · intro opts i cs Path d stats e hg hA he hne he0
    rw [fixlink_dir_erro_eq opts i cs Path d stats ⟨false, true⟩ e hg hA rfl rfl he hne,
      failTail_nonzero _ _ he0]
    exact ⟨rfl, rfl⟩
  · intro opts i cs Path d stats e hg hA he0
    rw [fixlink_attrs_error_eq opts i cs Path d stats e hg hA, failTail_nonzero _ _ he0]
    exact ⟨rfl, rfl⟩
  · intro opts i cs Path d stats b e hg hA hj hT he0
    rw [fixlink_reparse_eq opts i cs Path d stats ⟨true, b⟩ hg hA rfl,
      reparseBranch_junction opts i Path stats hj,
      junctionBranch_read_error opts i Path stats e hT, failTail_nonzero _ _ he0]
    exact ⟨rfl, rfl⟩
  · intro opts i cs Path d stats b tgt hg hA hj hT hd
    rw [fixlink_reparse_eq opts i cs Path d stats ⟨true, b⟩ hg hA rfl,
      reparseBranch_junction opts i Path stats hj,
      junctionBranch_delete_error opts i Path stats tgt hT hd, failTail_nonzero _ _ hd]
    exact ⟨rfl, rfl⟩
  · intro opts i cs Path d stats b tgt hg hA hj hT hd hc
    rw [fixlink_reparse_eq opts i cs Path d stats ⟨true, b⟩ hg hA rfl,
      reparseBranch_junction opts i Path stats hj,
      junctionBranch_create_error opts i Path stats tgt hT hd hc, failTail_nonzero _ _ hc]
    exact ⟨rfl, rfl⟩
  · intro opts fs a rest stats r0 h1 h2
    simp only [mainLoop]
    rw [if_neg h1, if_pos h2]

/-- A directory whose enumeration is denied. -/
def deniedDirInfo : NodeInfo :=
  { dirInfo with enumQuery := .error ERROR_ACCESS_DENIED }

/-- A directory whose enumeration fails with code 6. -/
def errDirInfo : NodeInfo :=
  { dirInfo with enumQuery := .error 6 }

/-- A junction whose target read fails with code 7. -/
def readErrJunctionInfo : NodeInfo :=
  { junctionInfo ['t'] with getTarget := .error 7 }

/-- A junction whose delete fails with code 8. -/
def delErrJunctionInfo : NodeInfo :=
  { junctionInfo ['t'] with deleteResult := 8 }

/-- A junction whose create fails with code 9. -/
def creErrJunctionInfo : NodeInfo :=
  { junctionInfo ['t'] with createResult := 9 }

/-- A filesystem in which every path is missing (attribute query fails
with file-not-found). -/
def fsHalt : List Char → FsNode := fun _ => .node (missingInfo 2) .nil

/-- Witness for C3 at concrete inputs, one per conjunct. -/
theorem claim_C3_witness :
    (fixlink initialOptions (.node deniedDirInfo .nil) ['p'] 0 initialStats =
      ⟨0, { initialStats with NumSkipped := initialStats.NumSkipped + 1 },
        [.msgAccessDenied ['p']]⟩) ∧
    ((fixlink initialOptions (.node errDirInfo .nil) ['p'] 0 initialStats).result = 6 ∧
      (fixlink initialOptions (.node errDirInfo .nil) ['p'] 0 initialStats).stats.NumFailed =
        initialStats.NumFailed + 1) ∧
    ((fixlink initialOptions (.node (missingInfo 2) .nil) ['p'] 0 initialStats).result = 2 ∧
      (fixlink initialOptions (.node (missingInfo 2) .nil) ['p'] 0 initialStats).stats.NumFailed =
        initialStats.NumFailed + 1) ∧
    ((fixlink initialOptions (.node readErrJunctionInfo .nil) ['p'] 0 initialStats).result = 7 ∧
      (fixlink initialOptions (.node readErrJunctionInfo .nil) ['p'] 0 initialStats).stats.NumFailed =
        initialStats.NumFailed + 1) ∧
    ((fixlink initialOptions (.node delErrJunctionInfo .nil) ['p'] 0 initialStats).result = 8 ∧
      (fixlink initialOptions (.node delErrJunctionInfo .nil) ['p'] 0 initialStats).stats.NumFailed =
        initialStats.NumFailed + 1) ∧
    ((fixlink initialOptions (.node creErrJunctionInfo .nil) ['p'] 0 initialStats).result = 9 ∧
      (fixlink initialOptions (.node creErrJunctionInfo .nil) ['p'] 0 initialStats).stats.NumFailed =
        initialStats.NumFailed + 1) ∧
    (mainLoop initialOptions fsHalt [['a'], ['b']] initialStats none =
      ⟨some (fixlink initialOptions (fsHalt ['a']) ['a'] 0 initialStats).result,
        (fixlink initialOptions (fsHalt ['a']) ['a'] 0 initialStats).stats,
        (fixlink initialOptions (fsHalt ['a']) ['a'] 0 initialStats).events, [['a']]⟩) :=
  ⟨claim_C3.1 initialOptions deniedDirInfo .nil ['p'] 0 initialStats (by decide) rfl rfl,
   claim_C3.2.1 initialOptions errDirInfo .nil ['p'] 0 initialStats 6 (by decide) rfl rfl
     (by decide) (by decide),
   claim_C3.2.2.1 initialOptions (missingInfo 2) .nil ['p'] 0 initialStats 2 (by decide) rfl
     (by decide),
   claim_C3.2.2.2.1 initialOptions readErrJunctionInfo .nil ['p'] 0 initialStats true 7
     (by decide) rfl rfl rfl (by decide),
   claim_C3.2.2.2.2.1 initialOptions delErrJunctionInfo .nil ['p'] 0 initialStats true ['t']
     (by decide) rfl rfl rfl (by decide),
   claim_C3.2.2.2.2.2.1 initialOptions creErrJunctionInfo .nil ['p'] 0 initialStats true ['t']
     (by decide) rfl rfl rfl rfl (by decide),
   claim_C3.2.2.2.2.2.2 initialOptions fsHalt ['a'] [['b']] initialStats none (by decide)
     (by decide)⟩

/-- C4: substitution correctness.  (1) For non-empty `F`, the rewritten
target is `T` with every non-overlapping leftmost occurrence of `F`
replaced by `R` (the inductive specification `ReplacesLeftmost`).  (2) When
`F` occurs nowhere in `T` the rewritten target equals `T`.  (3) Even when
the substitution is a no-op, the visit of a junction still attempts the
delete and (when the delete succeeds) the recreate with the unchanged
target: the no-op is not optimized away. -/
theorem claim_C4 :
    (∀ (F R T : List Char), F ≠ [] → ReplacesLeftmost F R T (StrReplace T F R)) ∧
    (∀ (F R T : List Char), ¬ F <:+: T → StrReplace T F R = T) ∧
    (∀ (opts : fixlinkOptions) (i : NodeInfo) (cs : FsChildren) (Path : List Char)
      (d : Int) (stats : fixlinkStats) (tgt : List Char), depthGuard opts d = false →
      i.attrQuery = .ok ⟨true, true⟩ → i.isJunction = true → i.getTarget = .ok tgt →
      StrReplace tgt opts.OldTargetBase opts.NewTargetBase = tgt →
      Event.deleteJunction Path ∈ (fixlink opts (.node i cs) Path d stats).events ∧
      (i.deleteResult = 0 →
        Event.createJunction Path tgt ∈ (fixlink opts (.node i cs) Path d stats).events)) := by
  refine ⟨?_, ?_, ?_⟩
  · intro F R T hF
    exact strReplaceAux_replaces F R hF T.length T le_rfl
  · intro F R T h
    exact strReplaceAux_no_occurrence F R T.length T h
  · intro opts i cs Path d stats tgt hg hA hj hT hno
    rw [fixlink_reparse_eq opts i cs Path d stats ⟨true, true⟩ hg hA rfl,
      reparseBranch_junction opts i Path stats hj]
    constructor
    · exact failTail_events_mem _ _ _ (junctionBranch_delete_mem opts i Path stats tgt hT)
    · intro hd
      have hc := junctionBranch_create_mem opts i Path stats tgt hT hd
      rw [hno] at hc
      exact failTail_events_mem _ _ _ hc

/-- Witness for C4: a replacement with one occurrence, a no-occurrence
identity, and a no-op rewrite that still deletes and recreates. -/
theorem claim_C4_witness :
    ReplacesLeftmost ['o'] ['n'] ['o', 'x'] (StrReplace ['o', 'x'] ['o'] ['n']) ∧
    StrReplace ['x'] ['o'] ['n'] = ['x'] ∧
    (Event.deleteJunction ['r'] ∈
      (fixlink initialOptions (.node (junctionInfo ['t']) .nil) ['r'] 0 initialStats).events ∧
     ((junctionInfo ['t']).deleteResult = 0 →
      Event.createJunction ['r'] ['t'] ∈
        (fixlink initialOptions (.node (junctionInfo ['t']) .nil) ['r'] 0 initialStats).events)) :=
  ⟨claim_C4.1 ['o'] ['n'] ['o', 'x'] (by decide),
   claim_C4.2.1 ['o'] ['n'] ['x'] (by decide),
   claim_C4.2.2 initialOptions (junctionInfo ['t']) .nil ['r'] 0 initialStats ['t']
     (by decide) rfl rfl rfl (by decide)⟩

/-- C5: depth bound.  (1) With a configured `maxDepth = n ≥ 0`, a visit at
`currentDepth > n` returns success immediately: counters and trace
untouched.  (2) Consequently the whole run at depth `d` is literally equal
to the run on the tree truncated `n + 1 - d` levels below: nothing lying
deeper than depth `n` is ever read, visited or modified.  (3) With
`maxDepth = -1` the guard never fires at any depth. -/
theorem claim_C5 :
    (∀ (opts : fixlinkOptions) (t : FsNode) (Path : List Char) (d : Int)
      (stats : fixlinkStats), 0 ≤ opts.MaxDepth → opts.MaxDepth < d →
      fixlink opts t Path d stats = ⟨0, stats, []⟩) ∧
    (∀ (opts : fixlinkOptions) (t : FsNode) (Path : List Char) (d : Int)
      (stats : fixlinkStats), 0 ≤ opts.MaxDepth →
      fixlink opts t Path d stats =
        fixlink opts (FsNode.truncate (opts.MaxDepth + 1 - d).toNat t) Path d stats) ∧
    (∀ (opts : fixlinkOptions) (d : Int), opts.MaxDepth = -1 → depthGuard opts d = false) := by
  refine ⟨?_, ?_, ?_⟩
  · intro opts t Path d stats h0 hd
    have hg : depthGuard opts d = true := by
      unfold depthGuard
      simp only [Bool.and_eq_true, decide_eq_true_eq]
      omega
    rw [fixlink.eq_def, hg]
    simp
  · intro opts t Path d stats h0
    exact (fixlink_truncate (opts.MaxDepth + 1 - d).toNat opts t Path d stats h0 (by omega)).symm
  · intro opts d h
    unfold depthGuard
    rw [h]
    simp

/-- Witness for C5 at concrete depth limit 1. -/
theorem claim_C5_witness :
    (fixlink ⟨['o'], ['n'], 1, false⟩ (.node (junctionInfo ['t']) .nil) ['p'] 2 initialStats =
      ⟨0, initialStats, []⟩) ∧
    (fixlink ⟨['o'], ['n'], 1, false⟩ (.node dirInfo .nil) ['p'] 0 initialStats =
      fixlink ⟨['o'], ['n'], 1, false⟩
        (FsNode.truncate (((1 : Int) + 1 - 0).toNat) (.node dirInfo .nil)) ['p'] 0 initialStats) ∧
    depthGuard initialOptions 5 = false :=
  ⟨claim_C5.1 ⟨['o'], ['n'], 1, false⟩ (.node (junctionInfo ['t']) .nil) ['p'] 2 initialStats
     (by decide) (by decide),
   claim_C5.2.1 ⟨['o'], ['n'], 1, false⟩ (.node dirInfo .nil) ['p'] 0 initialStats (by decide),
   claim_C5.2.2 initialOptions 5 rfl⟩

/-- Scenario: find `o`, replace `n`, root `r` a junction with target `ox`;
the find and replace tokens name existing ordinary files. -/
def fsC1 : List Char → FsNode := fun p =>
  if p = ['r'] then .node (junctionInfo ['o', 'x']) .nil else .node plainFileInfo .nil

/-- Command line `fixlink o n r`. -/
def argvC1 : List (List Char) := [['f'], ['o'], ['n'], ['r']]

/-- Scenario: find `old`, replace `new`, root `rt` a junction; the find
and replace tokens name nothing on disk. -/
def fsC2 : List Char → FsNode := fun p =>
  if p = ['r', 't'] then .node (junctionInfo ['o', 'l', 'd', 'x']) .nil
  else .node (missingInfo 2) .nil

/-- Command line `fixlink old new rt`. -/
def argvC2 : List (List Char) := [['f'], ['o', 'l', 'd'], ['n', 'e', 'w'], ['r', 't']]

/-- Scenario: the root `r` is missing; the find and replace tokens name
existing ordinary files. -/
def fsC8 : List Char → FsNode := fun p =>
  if p = ['r'] then .node (missingInfo 2) .nil else .node plainFileInfo .nil

/-- Command line `fixlink a b r`. -/
def argvC8 : List (List Char) := [['f'], ['a'], ['b'], ['r']]

/-- A directory entry that vanished between enumeration and visit: listed
as a directory, but the attribute query fails. -/
def badChildInfo : NodeInfo :=
  { missingInfo 2 with listedAttrs := ⟨false, true⟩ }

/-- Scenario: root `d` is a directory whose first child fails and whose
second child succeeds, so the root visit returns 0 although a failure was
counted. -/
def fsC8c : List Char → FsNode := fun p =>
  if p = ['d'] then
    .node dirInfo (.cons ['b'] (.node badChildInfo .nil)
      (.cons ['g'] (.node dirInfo .nil) .nil))
  else .node plainFileInfo .nil

/-- Command line `fixlink x y d`. -/
def argvC8c : List (List Char) := [['f'], ['x'], ['y'], ['d']]

/-- Scenario: only options precede the root `r`, a junction with target
`t`. -/
def fsC9 : List Char → FsNode := fun p =>
  if p = ['r'] then .node (junctionInfo ['t']) .nil else .node plainFileInfo .nil

/-- Command line `fixlink /V /LEV:2 r`. -/
def argvC9 : List (List Char) := [['f'], ['/', 'V'], ['/', 'L', 'E', 'V', ':', '2'], ['r']]

/-- C1 (code bug): no code path of the visit ever increments
`Stats.NumModified`, so the summary always prints `Modified: 0`.  In the
concrete run `fixlink o n r` the junction `r` is successfully rewritten
(the trace contains the recreate with the substituted target `nx`), yet
the printed summary is `Modified: 0 / Skipped: 0 / Failed: 0` where the
claim requires `Modified: 1`. -/
theorem claim_C1 :
    (∀ (opts : fixlinkOptions) (t : FsNode) (Path : List Char) (d : Int)
      (stats : fixlinkStats),
      (fixlink opts t Path d stats).stats.NumModified = stats.NumModified) ∧
    tmain fsC1 argvC1 =
      ⟨some 0, ⟨0, 0, 0⟩,
        [.getJunctionTarget ['r'], .strReplaceCall ['o', 'x'] ['o'] ['n'],
         .deleteJunction ['r'], .createJunction ['r'] ['n', 'x'], .summary 0 0 0],
        [['o'], ['n'], ['r']]⟩ :=
  ⟨fixlink_numModified, by decide⟩

/-- C2 (code bug): the driver loop starts at argv[1] and skips only
'/'-prefixed tokens, so the find token is passed to the traversal as the
first root.  In the concrete run `fixlink old new rt` the processed-roots
sequence is exactly `[old]`: the find token was visited (and, being no
real path, failed and halted the loop), and the actual root `rt` was
never processed, although the claim requires the roots to be exactly the
tokens after find and replace. -/
theorem claim_C2 :
    tmain fsC2 argvC2 =
      ⟨some 2, ⟨0, 0, 1⟩, [.msgFileNotFound ['o', 'l', 'd'], .summary 0 0 1],
        [['o', 'l', 'd']]⟩ := by
  decide

/-- Counterexample to C8 as stated: with the root `r` failing with
file-not-found (code 2), the process exit code is 2, not "exactly 1". -/
theorem claim_C8_counterexample :
    (tmain fsC8 argvC8).exit = some 2 ∧ (tmain fsC8 argvC8).stats.NumFailed = 1 := by
  decide

/-- C8 (amended): exit code 1 when fewer than 4 arguments; on a fatal
per-root failure the exit code is that root's non-zero error code (not
necessarily 1); exit code 1 when the loop finished with result 0 but the
failed counter is positive; exit code 0 on full success. -/
theorem claim_C8 (fs : List Char → FsNode) (argv : List (List Char)) (opts : fixlinkOptions)
    (hp : parseLoop argv.tail initialOptions = .parsed opts) :
    (argv.length < 4 → (tmain fs argv).exit = some 1) ∧
    (∀ r : Nat, ¬ argv.length < 4 →
      (mainLoop opts fs argv.tail initialStats none).exit = some r → r ≠ 0 →
      (tmain fs argv).exit = some r) ∧
    (¬ argv.length < 4 →
      (mainLoop opts fs argv.tail initialStats none).exit = some 0 →
      0 < (mainLoop opts fs argv.tail initialStats none).stats.NumFailed →
      (tmain fs argv).exit = some 1) ∧
    (¬ argv.length < 4 →
      (mainLoop opts fs argv.tail initialStats none).exit = some 0 →
      (mainLoop opts fs argv.tail initialStats none).stats.NumFailed = 0 →
      (tmain fs argv).exit = some 0) := by
  unfold tmain
  rw [hp]
  dsimp only
  refine ⟨?_, ?_, ?_, ?_⟩
  · intro h
    rw [if_pos h]
  · intro r h hm hr
    rw [if_neg h]
    dsimp only
    rw [hm]
    simp [hr]
  · intro h hm hf
    rw [if_neg h]
    dsimp only
    rw [hm]
    simp [hf]
  · intro h hm hf
    rw [if_neg h]
    dsimp only
    rw [hm]
    simp [hf]

/-- Witness for the amended C8: the four exit-code cases at concrete
runs. -/
theorem claim_C8_witness :
    (tmain fsHalt [['f'], ['a']]).exit = some 1 ∧
    (tmain fsC8 argvC8).exit = some 2 ∧
    (tmain fsC8c argvC8c).exit = some 1 ∧
    (tmain fsC1 argvC1).exit = some 0 :=
  ⟨(claim_C8 fsHalt [['f'], ['a']] initialOptions (by decide)).1 (by decide),
   (claim_C8 fsC8 argvC8 ⟨['a'], ['b'], -1, false⟩ (by decide)).2.1 2 (by decide)
     (by decide) (by decide),
   (claim_C8 fsC8c argvC8c ⟨['x'], ['y'], -1, false⟩ (by decide)).2.2.1 (by decide)
     (by decide) (by decide),
   (claim_C8 fsC1 argvC1 ⟨['o'], ['n'], -1, false⟩ (by decide)).2.2.2 (by decide)
     (by decide) (by decide)⟩

/-- The options produced by parsing `fixlink /V /LEV:2 r`: no non-option
token pair exists, so both bases stay empty. -/
def optsC9 : fixlinkOptions := ⟨[], [], 2, true⟩

/-- Counterexample to C9 as stated: in the run `fixlink /V /LEV:2 r` both
bases are empty, yet the junction `r` is rewritten: the substitution is
invoked with empty bases and the delete is attempted.  The program
establishes no non-emptiness invariant. -/
theorem claim_C9_counterexample :
    parseLoop argvC9.tail initialOptions = .parsed optsC9 ∧
    optsC9.OldTargetBase = [] ∧ optsC9.NewTargetBase = [] ∧
    Event.strReplaceCall ['t'] [] [] ∈ (tmain fsC9 argvC9).events ∧
    Event.deleteJunction ['r'] ∈ (tmain fsC9 argvC9).events := by
  decide

/-- C9 (amended): every substitution in a run uses exactly the parsed
bases, so the bases at every rewrite are non-empty precisely when the
parsed find and replace values are non-empty; the program itself performs
no check. -/
theorem claim_C9 (fs : List Char → FsNode) (argv : List (List Char)) (opts : fixlinkOptions)
    (hp : parseLoop argv.tail initialOptions = .parsed opts)
    (hOld : opts.OldTargetBase ≠ []) (hNew : opts.NewTargetBase ≠ [])
    (tg F R : List Char)
    (h : Event.strReplaceCall tg F R ∈ (tmain fs argv).events) :
    F ≠ [] ∧ R ≠ [] := by
  unfold tmain at h
  rw [hp] at h
  dsimp only at h
  split at h
  · simp at h
  · simp only [List.mem_append, List.mem_singleton] at h
    rcases h with h | h
    · have hb := mainLoop_strReplaceCall opts fs argv.tail initialStats none tg F R h
      constructor
      · rw [hb.1]; exact hOld
      · rw [hb.2]; exact hNew
    · simp at h

/-- Witness for the amended C9 at the run `fixlink o n r`. -/
theorem claim_C9_witness :
    (['o'] : List Char) ≠ [] ∧ (['n'] : List Char) ≠ [] :=
  claim_C9 fsC1 argvC1 ⟨['o'], ['n'], -1, false⟩ (by decide) (by decide) (by decide)
    ['o', 'x'] ['o'] ['n'] (by decide)
